import Mathlib

/-!
# Verification of the BTID-vs-Whole-Life insurance model

Shallow embedding of `src/model.py` (`class DeterministicModel`):
the deterministic year-by-year projector `calculate_simulation`, the
crossover search `get_crossover_age`, the cumulative-risk helper
`calculate_cumulative_risk`, and the Monte-Carlo life simulator
`run_stochastic_simulation`.

Python floats are modelled as exact rationals (`ℚ`); Python ints as `ℕ`.
The `np.random.random()` stream is modelled as an explicit stream of
draws (one rational per simulated year, indexed by `age - current_age`);
the CSV-backed actuarial tables as partial maps `ℕ → Option ℚ`
(`dict.get(age, 0.05)` becomes `Option.getD _ 0.05`), and the
`try/except` around table loading as an `Option` argument.
-/

/-- Constructor arguments of `DeterministicModel.__init__`. -/
structure PolicyParams where
  current_age : ℕ
  death_age : ℕ
  sa : ℚ
  prem_wl : ℚ
  prem_term : ℚ
  wl_par_return : ℚ
  payment_term : ℕ
  multiplier_factor : ℚ
  multiplier_age : ℕ
  term_expiry_age : ℕ
deriving DecidableEq

namespace Model

/-- `duration = self.death_age - self.current_age + 1` (line 22). -/
def duration (p : PolicyParams) : ℕ :=
  p.death_age - p.current_age + 1

/-- Yearly BTID cash flow of simulated year `t` (lines 35-37):
`prem_wl - prem_term` while `t <= payment_term`, then `-prem_term`
while `age < term_expiry_age`, else `0`; `age = current_age + t`. -/
def cashFlow (p : PolicyParams) (t : ℕ) : ℚ :=
  if t ≤ p.payment_term then p.prem_wl - p.prem_term
  else if p.current_age + t < p.term_expiry_age then -p.prem_term
  else 0

/-- BTID fund balance after simulated year `t` (lines 38-39):
`fund = (fund + cf) * (1 + investment_return)`, floored at `0`.
`btidFund p r t` is `btid_fund_accum[t]`. -/
def btidFund (p : PolicyParams) (r : ℚ) : ℕ → ℚ
  | 0 => 0
  | t + 1 =>
    let f := (btidFund p r t + cashFlow p (t + 1)) * (1 + r)
    if f < 0 then 0 else f

/-- The pair `(total_wl_paid, wl_sv)` after simulated year `t`
(lines 43-51).  During year `t`: `total_wl_paid += prem_wl` while
`t <= payment_term`; `wl_sv` is `0` for `t <= 2`, ramps as
`total_wl_paid * (t-2)/(payment_term-2) * 0.85` for `t <= payment_term`,
and afterwards compounds the previous value by `1 + wl_par_return`. -/
def wlState (p : PolicyParams) : ℕ → ℚ × ℚ
  | 0 => (0, 0)
  | t + 1 =>
    let s := wlState p t
    let total := if t + 1 ≤ p.payment_term then s.1 + p.prem_wl else s.1
    let sv :=
      if t + 1 ≤ 2 then 0
      else if t + 1 ≤ p.payment_term then
        total * ((((t : ℚ) + 1) - 2) / ((p.payment_term : ℚ) - 2)) * 0.85
      else s.2 * (1 + p.wl_par_return)
    (total, sv)

/-- WL surrender value after simulated year `t`: `wl_sv_accum[t]`. -/
def wlSV (p : PolicyParams) (t : ℕ) : ℚ :=
  (wlState p t).2

/-- One row of the DataFrame returned by `calculate_simulation`
(lines 63-68). -/
structure Row where
  age : ℕ
  btid_nominal : ℚ
  wl_nominal : ℚ
  btid_death : ℚ
  wl_death : ℚ
  btid_pv : ℚ
  wl_pv : ℚ
deriving DecidableEq

/-- `(1 + discount_rate) ** (-i)` (line 62). -/
def discFactor (dr : ℚ) (i : ℕ) : ℚ :=
  ((1 + dr) ^ i)⁻¹

/-- Row `i` of the projection (lines 53-68): age `current_age + i`,
the accumulated nominal values, the death benefits and present values. -/
def mkRow (p : PolicyParams) (r dr : ℚ) (i : ℕ) : Row :=
  let age := p.current_age + i
  let fund := btidFund p r i
  let sv := wlSV p i
  let term_val := if age < p.term_expiry_age then p.sa else 0
  let mult := if age < p.multiplier_age then p.multiplier_factor else 1
  { age := age
    btid_nominal := fund
    wl_nominal := sv
    btid_death := term_val + fund
    wl_death := max (p.sa * mult) (p.sa + sv)
    btid_pv := fund * discFactor dr i
    wl_pv := sv * discFactor dr i }

/-- `DeterministicModel.calculate_simulation` (lines 21-68): one row per
index `i = 0 .. duration`, i.e. per age `current_age .. current_age + duration`. -/
def calculate_simulation (p : PolicyParams) (r dr : ℚ) : List Row :=
  (List.range (duration p + 1)).map (mkRow p r dr)

/-- The temporary model built inside `get_crossover_age` (lines 71-75):
same parameters with `death_age = 100`. -/
def crossoverParams (p : PolicyParams) : PolicyParams :=
  { p with death_age := 100 }

/-- `DeterministicModel.get_crossover_age` (lines 70-80): project to age
100 with discount 0, keep rows with `Age > current_age + 5`, then rows
with `WL_Nominal > BTID_Nominal`; return the first such row's age, or
100 if there is none. -/
def get_crossover_age (p : PolicyParams) (r : ℚ) : ℕ :=
  let df := calculate_simulation (crossoverParams p) r 0
  let subset := df.filter (fun row => decide (p.current_age + 5 < row.age))
  let wins := subset.filter (fun row => decide (row.btid_nominal < row.wl_nominal))
  match wins with
  | [] => 100
  | w :: _ => w.age

/-! ## Cumulative risk helper (`calculate_cumulative_risk`, lines 82-101) -/

/-- Per-age loaded CI risk (lines 93-97): the table's per-mille rate
divided by 1000 and loaded by 1.3; `0.05` fallback when the age is
absent (the inner `try/except`). -/
def qRisk (ci : ℕ → Option ℚ) (age : ℕ) : ℚ :=
  match ci age with
  | some raw => raw / 1000 * 1.3
  | none => 0.05

/-- `DeterministicModel.calculate_cumulative_risk` (lines 82-101): the
outer `try/except` is the `Option` (0.0 on load failure); otherwise
multiply the survival factors `1 - q_risk` over
`range(current_age, target_age)` and return `(1 - product) * 100`. -/
def calculate_cumulative_risk (ciLoad : Option (ℕ → Option ℚ))
    (current_age target_age : ℕ) : ℚ :=
  match ciLoad with
  | none => 0
  | some ci =>
    (1 - ((List.range' current_age (target_age - current_age)).map
      (fun a => 1 - qRisk ci a)).prod) * 100

/-! ## Stochastic simulator (`run_stochastic_simulation`, lines 109-267) -/

/-- The two lookup tables loaded at lines 117-123, already filtered to
one sex and the latest year: `age → qx` and `age → loaded CI rate`. -/
structure ActuarialTables where
  death : ℕ → Option ℚ
  ci : ℕ → Option ℚ

/-- Per-life mutable state of the `while` loop (lines 134-150). -/
structure LifeState where
  age : ℕ
  wl_claims_count : ℕ
  term_claims_count : ℕ
  health_ci_count : ℕ
  btid_fund : ℚ
  wl_cash_received : ℚ
  wl_active : Bool
  term_active : Bool
  event_log : List String
deriving DecidableEq

/-- `wl_sv_current` of the stochastic loop (lines 181-186):
`total_paid = min(year_idx, payment_term) * prem_wl`; zero for the
first two years, `total_paid * 0.85 * (year_idx/payment_term)` during
the payment term, then the closed-form compounded value. -/
def wl_sv_stoch (p : PolicyParams) (year_idx : ℕ) : ℚ :=
  let total_paid : ℚ := ((min year_idx p.payment_term : ℕ) : ℚ) * p.prem_wl
  if year_idx ≤ 2 then 0
  else if year_idx ≤ p.payment_term then
    total_paid * 0.85 * ((year_idx : ℚ) / (p.payment_term : ℚ))
  else (p.prem_wl * (p.payment_term : ℚ)) * 0.85 *
    (1 + p.wl_par_return) ^ (year_idx - p.payment_term)

/-- The `if is_death:` branch (lines 191-215): WL pays if active and
under its claim limit (full benefit on a first claim, `sa * mult`
afterwards) and deactivates; term pays `sa` if active, under its limit
and before expiry, and deactivates; `"Death"` is logged only if some
payout occurred.  The life then terminates (`break`). -/
def deathStep (p : PolicyParams) (limitWL : ℕ) (mult wl_sv_current : ℚ)
    (s : LifeState) : LifeState :=
  let wlPays := s.wl_active && decide (s.wl_claims_count < limitWL)
  let payout := if s.wl_claims_count = 0
    then max (p.sa * mult) (p.sa + wl_sv_current) else p.sa * mult
  let s1 := if wlPays then
    { s with wl_cash_received := s.wl_cash_received + payout, wl_active := false }
    else s
  let termPays := s1.term_active && decide (s1.term_claims_count < 1) &&
    decide (s1.age < p.term_expiry_age)
  let s2 := if termPays then
    { s1 with btid_fund := s1.btid_fund + p.sa, term_active := false } else s1
  if wlPays || termPays then
    { s2 with event_log := s2.event_log ++ ["Death"] } else s2

/-- The `elif is_ci:` branch (lines 217-242): WL pays as at death but
counts the claim, deactivating only when multi-pay is disabled; term
pays `sa`, counts its claim and deactivates; `"CI"` is logged only if
some payout occurred. -/
def ciStep (p : PolicyParams) (mp : Bool) (limitWL : ℕ)
    (mult wl_sv_current : ℚ) (s : LifeState) : LifeState :=
  let wlPays := s.wl_active && decide (s.wl_claims_count < limitWL)
  let payout := if s.wl_claims_count = 0
    then max (p.sa * mult) (p.sa + wl_sv_current) else p.sa * mult
  let s1 := if wlPays then
    { s with wl_cash_received := s.wl_cash_received + payout,
             wl_claims_count := s.wl_claims_count + 1,
             wl_active := if mp then s.wl_active else false }
    else s
  let termPays := s1.term_active && decide (s1.term_claims_count < 1) &&
    decide (s1.age < p.term_expiry_age)
  let s2 := if termPays then
    { s1 with btid_fund := s1.btid_fund + p.sa,
              term_claims_count := s1.term_claims_count + 1,
              term_active := false }
    else s1
  if wlPays || termPays then
    { s2 with event_log := s2.event_log ++ ["CI"] } else s2

/-- The cash-flow block (lines 244-254): received WL cash compounds
once positive; the BTID fund receives `budget - term_premium_due` and
compounds, floored at 0; the age advances. -/
def cashflowStep (p : PolicyParams) (r_inv : ℚ) (s : LifeState) : LifeState :=
  let year_idx := s.age - p.current_age + 1
  let wl_cash := if 0 < s.wl_cash_received
    then s.wl_cash_received * (1 + r_inv) else s.wl_cash_received
  let budget := if year_idx ≤ p.payment_term then p.prem_wl else 0
  let term_premium_due :=
    if decide (s.age < p.term_expiry_age) && s.term_active then p.prem_term else 0
  let fund := (s.btid_fund + (budget - term_premium_due)) * (1 + r_inv)
  { s with wl_cash_received := wl_cash,
           btid_fund := if fund < 0 then 0 else fund,
           age := s.age + 1 }

/-- The loaded mortality probability `q_d` (lines 156-165): the table's
`qx` (0.05 fallback) times the health multiplier — ×1 with no prior CI,
×2.5 with one, ×5.0 with two or more, capped at 0.99. -/
def loaded_q_d (tb : ActuarialTables) (health age : ℕ) : ℚ :=
  let base_q_d := (tb.death age).getD 0.05
  if health = 0 then base_q_d
  else if health = 1 then min 0.99 (base_q_d * 2.5)
  else min 0.99 (base_q_d * 5.0)

/-- One iteration of the `while` loop (lines 152-254).  Returns the
updated state and whether the life terminated (`break` on death).
Hazard draw (lines 155-176): mortality loaded by the health multiplier,
forced death at age 100, otherwise one uniform roll decides death
(`roll < q_d`) or CI (`q_d <= roll < q_d + base_q_ci`). -/
def yearStep (p : PolicyParams) (mp : Bool) (limitWL : ℕ) (r_inv : ℚ)
    (tb : ActuarialTables) (roll : ℚ) (s : LifeState) : LifeState × Bool :=
  let year_idx := s.age - p.current_age + 1
  let base_q_ci := (tb.ci s.age).getD 0.05
  let q_d := loaded_q_d tb s.health_ci_count s.age
  let is_death := if s.age = 100 then true else decide (roll < q_d)
  let is_ci := if s.age = 100 then false
    else !(decide (roll < q_d)) && decide (roll < q_d + base_q_ci)
  let s0 := if is_ci then { s with health_ci_count := s.health_ci_count + 1 } else s
  let mult := if s.age < p.multiplier_age then p.multiplier_factor else 1
  let wl_sv_current := wl_sv_stoch p year_idx
  if is_death then (deathStep p limitWL mult wl_sv_current s0, true)
  else if is_ci then
    (cashflowStep p r_inv (ciStep p mp limitWL mult wl_sv_current s0), false)
  else (cashflowStep p r_inv s0, false)

/-- The `while alive and age <= max_simulation_age` loop, with explicit
fuel (the loop runs at most `101 - current_age` times, so any fuel
above that is equivalent).  `draws` is the stream of
`np.random.random()` values, indexed by `age - current_age`. -/
def runLife (p : PolicyParams) (mp : Bool) (limitWL : ℕ) (r_inv : ℚ)
    (tb : ActuarialTables) (draws : ℕ → ℚ) : ℕ → LifeState → LifeState
  | 0, s => s
  | fuel + 1, s =>
    if 100 < s.age then s
    else
      let step := yearStep p mp limitWL r_inv tb (draws (s.age - p.current_age)) s
      if step.2 then step.1 else runLife p mp limitWL r_inv tb draws fuel step.1

/-- The per-life state initialisation (lines 134-150). -/
def initState (p : PolicyParams) : LifeState :=
  { age := p.current_age, wl_claims_count := 0, term_claims_count := 0,
    health_ci_count := 0, btid_fund := 0, wl_cash_received := 0,
    wl_active := true, term_active := true, event_log := [] }

/-- `" -> ".join(event_log)` (Python `str.join` semantics). -/
def joinChain : List String → String
  | [] => ""
  | [x] => x
  | x :: y :: xs => x ++ " -> " ++ joinChain (y :: xs)

/-- One row of the result DataFrame (lines 256-265). -/
structure LifeOutcome where
  events : List String
  eventChain : String
  finalAge : ℕ
  diff : ℚ
deriving DecidableEq

/-- One full pass of the per-life loop plus the final record (lines
133-265): event chain (`"Survive"` when no event was logged), final
age, and the discounted wealth differential. -/
def simLife (p : PolicyParams) (tb : ActuarialTables) (r_inv r_disc : ℚ)
    (mp : Bool) (maxc : ℕ) (draws : ℕ → ℚ) : LifeOutcome :=
  let limitWL := if mp then maxc else 1
  let f := runLife p mp limitWL r_inv tb draws 102 (initState p)
  let years_passed := f.age - p.current_age
  let pv_factor := ((1 + r_disc) ^ years_passed)⁻¹
  { events := f.event_log,
    eventChain := if f.event_log.isEmpty then "Survive" else joinChain f.event_log,
    finalAge := f.age,
    diff := f.btid_fund * pv_factor - f.wl_cash_received * pv_factor }

/-- `DeterministicModel.run_stochastic_simulation` (lines 109-267).
`tbLoad` is the outcome of the `try/except` table load (lines 116-125):
`none` models a load/parse failure, on which the empty collection is
returned; `limit_wl_claims = max_ci_claims if enable_multi_pay else 1`
(line 130).  `draws i` is the random stream of life `i`. -/
def run_stochastic_simulation (p : PolicyParams) (n_sims : ℕ)
    (tbLoad : Option ActuarialTables) (r_inv r_disc : ℚ)
    (enable_multi_pay : Bool) (max_ci_claims : ℕ)
    (draws : ℕ → ℕ → ℚ) : List LifeOutcome :=
  match tbLoad with
  | none => []
  | some tb =>
    (List.range n_sims).map
      (fun i => simLife p tb r_inv r_disc enable_multi_pay max_ci_claims (draws i))

end Model

open Model

/-- The dashboard's standard scenario (`src/app.py`, `src/debug_app.py`):
age 30 to 85, SA 300000, WL premium 6000, term premium 800, 20-year
payment term, 3.75% participating rate, expiries at 70. -/
def exampleParams : PolicyParams :=
  { current_age := 30, death_age := 85, sa := 300000, prem_wl := 6000,
    prem_term := 800, wl_par_return := 0.0375, payment_term := 20,
    multiplier_factor := 1, multiplier_age := 70, term_expiry_age := 70 }

/-- Tables with every age absent: both hazard lookups fall back to 0.05. -/
def tbEmpty : ActuarialTables :=
  { death := fun _ => none, ci := fun _ => none }

/-- A starting age past the simulation ceiling (the spec's
`current_age < death_age` invariant allows it). -/
def centenarianParams : PolicyParams :=
  { exampleParams with current_age := 101, death_age := 102 }

/-- A life that starts at age 99 with vacuous premiums and a term
cover that never expires (term_expiry_age 200). -/
def lateParams : PolicyParams :=
  { current_age := 99, death_age := 100, sa := 0, prem_wl := 0,
    prem_term := 0, wl_par_return := 0, payment_term := 0,
    multiplier_factor := 1, multiplier_age := 70, term_expiry_age := 200 }

/-- As `lateParams` but with the usual expiry at 70. -/
def lateParams70 : PolicyParams :=
  { lateParams with term_expiry_age := 70 }

/-- Placeholder outcome for `List.headD`. -/
def dummyOutcome : LifeOutcome :=
  { events := [], eventChain := "", finalAge := 0, diff := 0 }

/-! ## C1: row count and age column of `calculate_simulation` -/

unseal Rat.add Rat.mul Rat.sub Rat.inv Rat.ofScientific in
/-- C1 (counterexample): for the standard scenario (current_age 30,
death_age 85) the projection does NOT have `death_age - current_age + 1
= 56` rows: it has 57 (ages 30..86), one per index
`0 .. duration = death_age - current_age + 1`. -/
theorem C1_counterexample :
    (calculate_simulation exampleParams (1/20) 0).length ≠ 85 - 30 + 1 := by
  decide

/-- C1 (amended): for every valid `PolicyParams`
(`current_age < death_age`), `calculate_simulation` returns
`death_age - current_age + 2` rows whose `Age` column is
`current_age, current_age+1, ..., death_age+1` — one row more than the
spec's `death_age - current_age + 1`, because the code sets
`duration = death_age - current_age + 1` and emits ages
`current_age + i` for `i = 0 .. duration`. -/
theorem C1_row_ages (p : PolicyParams) (r dr : ℚ)
    (h : p.current_age < p.death_age) :
    (calculate_simulation p r dr).length = p.death_age - p.current_age + 2 ∧
    (calculate_simulation p r dr).map Row.age =
      (List.range (p.death_age - p.current_age + 2)).map
        (fun i => p.current_age + i) := by
  constructor
  · simp [calculate_simulation, duration]
  · simp only [calculate_simulation, duration, List.map_map]
    rfl

unseal Rat.add Rat.mul Rat.sub Rat.inv Rat.ofScientific in
/-- Witness for `C1_row_ages` at the standard scenario. -/
theorem C1_row_ages_witness :
    exampleParams.current_age < exampleParams.death_age ∧
    ((calculate_simulation exampleParams (1/20) 0).length =
        exampleParams.death_age - exampleParams.current_age + 2 ∧
      (calculate_simulation exampleParams (1/20) 0).map Row.age =
        (List.range (exampleParams.death_age - exampleParams.current_age + 2)).map
          (fun i => exampleParams.current_age + i)) :=
  ⟨by decide, C1_row_ages exampleParams (1/20) 0 (by decide)⟩

/-! ## C4: the concrete row at age 31 -/

unseal Rat.add Rat.mul Rat.sub Rat.inv Rat.ofScientific in
/-- C4 (counterexample): in the standard scenario the row at age 31
(`t = 1`) has `BTID_Nominal = (0 + 5200) * 1.05 = 5460`, not `5200`:
the stored fund value is taken after compounding (line 38 stores
`fund = (fund + cf) * (1 + investment_return)`). -/
theorem C4_counterexample :
    (calculate_simulation exampleParams (1/20) 0)[1]? =
      some { age := 31, btid_nominal := 5460, wl_nominal := 0,
             btid_death := 305460, wl_death := 300000,
             btid_pv := 5460, wl_pv := 0 } ∧
    (5460 : ℚ) ≠ 5200 := by
  constructor
  · decide
  · decide

unseal Rat.add Rat.mul Rat.sub Rat.inv Rat.ofScientific in
/-- C4 (amended): in the standard scenario the row at age 31 (`t = 1`)
has `BTID_Nominal = (6000 - 800) * 1.05 = 5460` (cash flow plus one
year of compounding) and `WL_Nominal = 0`. -/
theorem C4_row_age31 :
    ∃ row ∈ calculate_simulation exampleParams (1/20) 0,
      row.age = 31 ∧ row.btid_nominal = (6000 - 800) * (1 + 1/20) ∧
      row.wl_nominal = 0 := by
  decide

/-! ## C7: degenerate payment terms (`payment_term ≤ 2`) -/

unseal Rat.add Rat.mul Rat.sub Rat.inv Rat.ofScientific in
/-- C7 (counterexample): for `payment_term = 2` the stochastic
simulator's WL cash value is NOT the degenerate zero fallback: from
`year_idx = 3` on it takes the closed-form branch
`(prem_wl * payment_term) * 0.85 * (1 + par)^(year_idx - payment_term)`,
which is `6000*2*0.85*1.0375 = 10582.5 ≠ 0` at `year_idx = 3` in the
standard scenario. -/
theorem C7_counterexample :
    ({ exampleParams with payment_term := 2 } : PolicyParams).payment_term ≤ 2 ∧
    wl_sv_stoch { exampleParams with payment_term := 2 } 3 ≠ 0 := by
  constructor
  · decide
  · decide

/-- C7 (amended): for `payment_term ≤ 2`, in both recurrences the ramp
branch that divides (by `payment_term - 2` resp. `payment_term`) is
unreachable — its guard `2 < t ∧ t ≤ payment_term` is unsatisfiable —
so no division by zero occurs; the deterministic projector's WL cash
value is identically zero, while the stochastic simulator's WL cash
value takes the closed-form compounding branch for every
`year_idx > 2` (which is not zero in general). -/
theorem C7_degenerate_payment_term (p : PolicyParams)
    (h : p.payment_term ≤ 2) :
    (∀ t : ℕ, ¬(2 < t ∧ t ≤ p.payment_term)) ∧
    (∀ t, wlSV p t = 0) ∧
    (∀ yi, 2 < yi → wl_sv_stoch p yi =
      (p.prem_wl * (p.payment_term : ℚ)) * 0.85 *
        (1 + p.wl_par_return) ^ (yi - p.payment_term)) := by
  refine ⟨fun t => by omega, ?_, ?_⟩
  · intro t
    induction t with
    | zero => rfl
    | succ n ih =>
      simp only [wlSV, wlState]
      rcases le_or_lt (n + 1) 2 with h1 | h1
      · simp [h1]
      · have h2 : ¬(n + 1 ≤ p.payment_term) := by omega
        simp only [wlSV] at ih
        simp [Nat.not_le.2 h1, h2, ih]
  · intro yi hyi
    rw [wl_sv_stoch]
    split_ifs with h1 h2
    · omega
    · omega
    · rfl

unseal Rat.add Rat.mul Rat.sub Rat.inv Rat.ofScientific in
/-- Witness for `C7_degenerate_payment_term` at `payment_term = 2`. -/
theorem C7_degenerate_payment_term_witness :
    ({ exampleParams with payment_term := 2 } : PolicyParams).payment_term ≤ 2 ∧
    wlSV { exampleParams with payment_term := 2 } 5 = 0 :=
  ⟨by decide,
    (C7_degenerate_payment_term { exampleParams with payment_term := 2 }
      (by decide)).2.1 5⟩

/-! ## C3, C6: the crossover search -/

/-- The head of a filtered list is minimal among surviving elements,
for any relation enumerated in order by the base list. -/
theorem head_filter_rel {α : Type} {R : α → α → Prop} {q : α → Bool} :
    ∀ (l : List α), l.Pairwise R → ∀ (w : α) (t : List α),
      l.filter q = w :: t → ∀ x ∈ l, q x = true → w = x ∨ R w x := by
  intro l
  induction l with
  | nil => intro _ w t h; simp at h
  | cons a as ih =>
    intro hp w t hf x hx hqx
    rw [List.pairwise_cons] at hp
    by_cases hqa : q a
    · rw [List.filter_cons_of_pos hqa] at hf
      obtain ⟨rfl, rfl⟩ := List.cons.inj hf
      rcases List.mem_cons.1 hx with rfl | hxs
      · left; rfl
      · right; exact hp.1 x hxs
    · rw [List.filter_cons_of_neg hqa] at hf
      rcases List.mem_cons.1 hx with rfl | hxs
      · exact absurd hqx (by simpa using hqa)
      · exact ih hp.2 w t hf x hxs hqx

/-- The BTID fund is pointwise monotone in the investment return, for
returns `≥ -1` (the WL side of the projection does not depend on it). -/
theorem btidFund_mono (p : PolicyParams) {r1 r2 : ℚ} (h1 : -1 ≤ r1)
    (h12 : r1 ≤ r2) : ∀ t, btidFund p r1 t ≤ btidFund p r2 t := by
  intro t
  induction t with
  | zero => exact le_refl 0
  | succ n ih =>
    have hr1 : (0:ℚ) ≤ 1 + r1 := by linarith
    have hr2 : (0:ℚ) ≤ 1 + r2 := by linarith
    have ha : btidFund p r1 n + cashFlow p (n + 1) ≤
        btidFund p r2 n + cashFlow p (n + 1) := by linarith
    simp only [btidFund]
    have hkey : (btidFund p r1 n + cashFlow p (n + 1)) * (1 + r1) ≤
          (btidFund p r2 n + cashFlow p (n + 1)) * (1 + r2) ∨
        (btidFund p r1 n + cashFlow p (n + 1)) * (1 + r1) ≤ 0 := by
      rcases le_or_lt (btidFund p r1 n + cashFlow p (n + 1)) 0 with h | h
      · right; exact mul_nonpos_iff.2 (Or.inr ⟨h, hr1⟩)
      · left
        calc (btidFund p r1 n + cashFlow p (n + 1)) * (1 + r1)
            ≤ (btidFund p r2 n + cashFlow p (n + 1)) * (1 + r1) :=
              mul_le_mul_of_nonneg_right ha hr1
          _ ≤ (btidFund p r2 n + cashFlow p (n + 1)) * (1 + r2) :=
              mul_le_mul_of_nonneg_left (by linarith) (by linarith)
    split_ifs with hx1 hx2 hx2
    · exact le_refl 0
    · linarith [not_lt.1 hx2]
    · rcases hkey with h | h <;> linarith
    · rcases hkey with h | h <;> linarith [not_lt.1 hx2]

/-- `get_crossover_age` in terms of row indices: the rows are
`mkRow (crossoverParams p) r 0 i` for `i = 0 .. duration`, so the
two row filters become index filters. -/
theorem get_crossover_age_eq_indices (p : PolicyParams) (r : ℚ) :
    get_crossover_age p r =
      match ((List.range (duration (crossoverParams p) + 1)).filter
            (fun i => decide (5 < i))).filter
          (fun i => decide (btidFund (crossoverParams p) r i <
            wlSV (crossoverParams p) i)) with
      | [] => 100
      | j :: _ => p.current_age + j := by
  have e1 : ((fun row : Row => decide (p.current_age + 5 < row.age)) ∘
      mkRow (crossoverParams p) r 0) = fun i => decide (5 < i) := by
    funext i
    simp [mkRow, crossoverParams, Function.comp]
  have e2 : ((fun row : Row => decide (row.btid_nominal < row.wl_nominal)) ∘
      mkRow (crossoverParams p) r 0) =
      fun i => decide (btidFund (crossoverParams p) r i <
        wlSV (crossoverParams p) i) := rfl
  simp only [get_crossover_age, calculate_simulation]
  rw [List.filter_map, e1, List.filter_map, e2]
  rcases ((List.range (duration (crossoverParams p) + 1)).filter
      (fun i => decide (5 < i))).filter
      (fun i => decide (btidFund (crossoverParams p) r i <
        wlSV (crossoverParams p) i)) with _ | ⟨j, t⟩
  · rfl
  · rfl

set_option maxRecDepth 8000 in
unseal Rat.add Rat.mul Rat.sub Rat.inv Rat.ofScientific in
/-- C3 (counterexample): at investment return `2/63 ≈ 3.17%` the
standard scenario's crossover age is 101 — outside `[current_age+5, 100]`
— because the projection built by `get_crossover_age` extends one year
past the age-100 ceiling and the first strict WL > BTID row is that
last extra row. -/
theorem C3_counterexample :
    get_crossover_age exampleParams (2/63) = 101 ∧
    ¬(get_crossover_age exampleParams (2/63) ≤ 100) := by
  constructor
  · decide
  · decide

/-- C3 (amended): `get_crossover_age` returns either 100 (meaning no
row with age above `current_age + 5` has WL cash value strictly above
the BTID fund anywhere in the table, which extends to age 101), or the
first age greater than `current_age + 5` at which WL nominal cash value
strictly exceeds BTID nominal fund value — an age in
`[current_age + 6, 101]`, i.e. possibly 101 rather than at most 100. -/
theorem C3_characterization (p : PolicyParams) (r : ℚ) :
    (get_crossover_age p r = 100 ∧
      ∀ row ∈ calculate_simulation (crossoverParams p) r 0,
        p.current_age + 5 < row.age → row.wl_nominal ≤ row.btid_nominal) ∨
    (∃ row ∈ calculate_simulation (crossoverParams p) r 0,
      get_crossover_age p r = row.age ∧
      p.current_age + 5 < row.age ∧ row.age ≤ 101 ∧
      row.btid_nominal < row.wl_nominal ∧
      ∀ row2 ∈ calculate_simulation (crossoverParams p) r 0,
        p.current_age + 5 < row2.age → row2.btid_nominal < row2.wl_nominal →
        row.age ≤ row2.age) := by
  rcases hw : ((calculate_simulation (crossoverParams p) r 0).filter
      (fun row => decide (p.current_age + 5 < row.age))).filter
      (fun row => decide (row.btid_nominal < row.wl_nominal)) with _ | ⟨w, t⟩
  · left
    constructor
    · simp only [get_crossover_age]
      rw [hw]
    · intro row hrow hage
      by_contra hlt
      have hmem : row ∈ ((calculate_simulation (crossoverParams p) r 0).filter
          (fun row => decide (p.current_age + 5 < row.age))).filter
          (fun row => decide (row.btid_nominal < row.wl_nominal)) := by
        refine List.mem_filter.2 ⟨List.mem_filter.2 ⟨hrow, ?_⟩, ?_⟩
        · exact decide_eq_true hage
        · exact decide_eq_true (not_le.1 hlt)
      rw [hw] at hmem
      exact absurd hmem (List.not_mem_nil row)
  · right
    have hw_mem : w ∈ ((calculate_simulation (crossoverParams p) r 0).filter
        (fun row => decide (p.current_age + 5 < row.age))).filter
        (fun row => decide (row.btid_nominal < row.wl_nominal)) := by
      rw [hw]; exact List.mem_cons_self w t
    have h2 := List.mem_filter.1 hw_mem
    have h1 := List.mem_filter.1 h2.1
    have hage : p.current_age + 5 < w.age := of_decide_eq_true h1.2
    have hlt : w.btid_nominal < w.wl_nominal := of_decide_eq_true h2.2
    have hpw : (calculate_simulation (crossoverParams p) r 0).Pairwise
        (fun a b : Row => a.age < b.age) := by
      refine (List.pairwise_lt_range _).map _ ?_
      intro a b hab
      simpa [mkRow] using Nat.add_lt_add_left hab (crossoverParams p).current_age
    refine ⟨w, h1.1, ?_, hage, ?_, hlt, ?_⟩
    · simp only [get_crossover_age]
      rw [hw]
    · obtain ⟨i, hi, rfl⟩ := List.mem_map.1 h1.1
      have hi' : i < duration (crossoverParams p) + 1 := List.mem_range.1 hi
      have hage' : p.current_age + 5 < p.current_age + i := hage
      simp only [duration, crossoverParams] at hi'
      show p.current_age + i ≤ 101
      omega
    · intro row2 h2mem hage2 hlt2
      have h2f : row2 ∈ (calculate_simulation (crossoverParams p) r 0).filter
          (fun row => decide (p.current_age + 5 < row.age)) :=
        List.mem_filter.2 ⟨h2mem, decide_eq_true hage2⟩
      rcases head_filter_rel _ (hpw.filter _) w t hw row2 h2f
          (decide_eq_true hlt2) with rfl | hlt'
      · exact le_refl _
      · exact le_of_lt hlt'

unseal Rat.add Rat.mul Rat.sub Rat.inv Rat.ofScientific in
/-- C6 (counterexample): crossover ages in the standard scenario are
NOT monotone in the investment return: at `r = 2/63` the crossover age
is 101 (the extra past-ceiling row), while at the larger `r = 1/31`
no row wins and the sentinel 100 is returned. -/
theorem C6_counterexample :
    ((2:ℚ)/63) ≤ 1/31 ∧
    get_crossover_age exampleParams (1/31) <
      get_crossover_age exampleParams (2/63) := by
  constructor
  · decide
  · decide

/-- C6 (amended): capped at the age-100 ceiling (which identifies the
"never" sentinel with a crossover at the ceiling-or-later), the
crossover age is monotonically non-decreasing in the investment return,
for returns `≥ -1`: a higher return never decreases the capped
crossover age. -/
theorem C6_crossover_monotone (p : PolicyParams) (r1 r2 : ℚ)
    (h1 : -1 ≤ r1) (h12 : r1 ≤ r2) :
    min (get_crossover_age p r1) 100 ≤ min (get_crossover_age p r2) 100 := by
  rw [get_crossover_age_eq_indices p r1, get_crossover_age_eq_indices p r2]
  have hpw : (((List.range (duration (crossoverParams p) + 1)).filter
      (fun i => decide (5 < i)))).Pairwise (· < ·) :=
    (List.pairwise_lt_range _).filter _
  rcases h2c : ((List.range (duration (crossoverParams p) + 1)).filter
      (fun i => decide (5 < i))).filter
      (fun i => decide (btidFund (crossoverParams p) r2 i <
        wlSV (crossoverParams p) i)) with _ | ⟨j, t2⟩
  · rcases h1c : ((List.range (duration (crossoverParams p) + 1)).filter
        (fun i => decide (5 < i))).filter
        (fun i => decide (btidFund (crossoverParams p) r1 i <
          wlSV (crossoverParams p) i)) with _ | ⟨i, t1⟩
    · exact le_refl _
    · show min (p.current_age + i) 100 ≤ min 100 100
      omega
  · have hj_mem : j ∈ ((List.range (duration (crossoverParams p) + 1)).filter
        (fun i => decide (5 < i))).filter
        (fun i => decide (btidFund (crossoverParams p) r2 i <
          wlSV (crossoverParams p) i)) := by
      rw [h2c]; exact List.mem_cons_self j t2
    have hj := List.mem_filter.1 hj_mem
    have hq1 : btidFund (crossoverParams p) r1 j < wlSV (crossoverParams p) j :=
      lt_of_le_of_lt (btidFund_mono (crossoverParams p) h1 h12 j)
        (of_decide_eq_true hj.2)
    rcases h1c : ((List.range (duration (crossoverParams p) + 1)).filter
        (fun i => decide (5 < i))).filter
        (fun i => decide (btidFund (crossoverParams p) r1 i <
          wlSV (crossoverParams p) i)) with _ | ⟨i, t1⟩
    · exact absurd (decide_eq_true hq1) (List.filter_eq_nil_iff.1 h1c j hj.1)
    · have hij : i ≤ j := by
        rcases head_filter_rel _ hpw i t1 h1c j hj.1 (decide_eq_true hq1) with
          rfl | hlt
        · exact le_refl _
        · exact le_of_lt hlt
      show min (p.current_age + i) 100 ≤ min (p.current_age + j) 100
      omega

/-- Witness for `C6_crossover_monotone` at the standard scenario with
equal returns 0. -/
theorem C6_crossover_monotone_witness :
    ((-1:ℚ) ≤ 0 ∧ (0:ℚ) ≤ 0) ∧
    min (get_crossover_age exampleParams 0) 100 ≤
      min (get_crossover_age exampleParams 0) 100 :=
  ⟨⟨by norm_num, le_refl 0⟩,
    C6_crossover_monotone exampleParams 0 0 (by norm_num) (le_refl 0)⟩

/-! ## C9: cumulative risk bounds and monotonicity -/

theorem list_prod_le_one {l : List ℚ} (h0 : ∀ x ∈ l, 0 ≤ x)
    (h1 : ∀ x ∈ l, x ≤ 1) : l.prod ≤ 1 := by
  induction l with
  | nil => simp
  | cons x xs ih =>
    have hx0 := h0 x (by simp)
    have hx1 := h1 x (by simp)
    have hxs0 : (0:ℚ) ≤ xs.prod :=
      List.prod_nonneg (fun y hy => h0 y (by simp [hy]))
    have hxs1 : xs.prod ≤ 1 :=
      ih (fun y hy => h0 y (by simp [hy])) (fun y hy => h1 y (by simp [hy]))
    rw [List.prod_cons]
    nlinarith [hx0, hx1, hxs0, hxs1]

theorem list_prod_lt_one {l : List ℚ} (hne : l ≠ [])
    (h0 : ∀ x ∈ l, 0 ≤ x) (h1 : ∀ x ∈ l, x < 1) : l.prod < 1 := by
  cases l with
  | nil => exact absurd rfl hne
  | cons x xs =>
    have hx0 := h0 x (by simp)
    have hx1 := h1 x (by simp)
    have hxs1 : xs.prod ≤ 1 :=
      list_prod_le_one (fun y hy => h0 y (by simp [hy]))
        (fun y hy => le_of_lt (h1 y (by simp [hy])))
    have hxs0 : (0:ℚ) ≤ xs.prod :=
      List.prod_nonneg (fun y hy => h0 y (by simp [hy]))
    calc (x :: xs).prod = x * xs.prod := List.prod_cons
    _ ≤ x := mul_le_of_le_one_right hx0 hxs1
    _ < 1 := hx1

/-- C9: provided the loaded CI rates for ages 30..69 are strict
probabilities (`0 < q_risk < 1`, as the 0.05 fallback and any realistic
loaded table rate are), `calculate_cumulative_risk(30, 70, ·)` lies
strictly between 0 and 100; and for rates in `[0, 1]` the result is
monotonically non-decreasing in `target_age` for fixed `current_age`. -/
theorem C9_cumulative_risk :
    (∀ ci : ℕ → Option ℚ,
      (∀ a, 30 ≤ a → a < 70 → 0 < qRisk ci a ∧ qRisk ci a < 1) →
      0 < calculate_cumulative_risk (some ci) 30 70 ∧
        calculate_cumulative_risk (some ci) 30 70 < 100) ∧
    (∀ (ci : ℕ → Option ℚ) (ca t1 t2 : ℕ),
      (∀ a, 0 ≤ qRisk ci a ∧ qRisk ci a ≤ 1) → t1 ≤ t2 →
      calculate_cumulative_risk (some ci) ca t1 ≤
        calculate_cumulative_risk (some ci) ca t2) := by
  constructor
  · intro ci hq
    simp only [calculate_cumulative_risk]
    set L := (List.range' 30 (70 - 30)).map (fun a => 1 - qRisk ci a) with hL
    have hmem : ∀ x ∈ L, 0 < x ∧ x < 1 := by
      intro x hx
      rw [hL] at hx
      obtain ⟨a, ha, rfl⟩ := List.mem_map.1 hx
      rw [List.mem_range'_1] at ha
      have := hq a ha.1 (by omega)
      constructor <;> linarith [this.1, this.2]
    have hne : L ≠ [] := List.length_pos.1 (by simp [hL])
    have hpos : 0 < L.prod := List.prod_pos (fun x hx => (hmem x hx).1)
    have hlt : L.prod < 1 :=
      list_prod_lt_one hne (fun x hx => le_of_lt (hmem x hx).1)
        (fun x hx => (hmem x hx).2)
    constructor <;> nlinarith [hpos, hlt]
  · intro ci ca t1 t2 hq h12
    simp only [calculate_cumulative_risk]
    have hsub : t1 - ca ≤ t2 - ca := Nat.sub_le_sub_right h12 ca
    have hsplit : List.range' ca (t2 - ca) =
        List.range' ca (t1 - ca) ++ List.range' (ca + (t1 - ca)) ((t2 - ca) - (t1 - ca)) := by
      have h := List.range'_append ca (t1 - ca) ((t2 - ca) - (t1 - ca)) 1
      rw [one_mul] at h
      have e : (t2 - ca) - (t1 - ca) + (t1 - ca) = t2 - ca := by omega
      rw [e] at h
      exact h.symm
    rw [hsplit, List.map_append, List.prod_append]
    have hP1 : (0:ℚ) ≤ ((List.range' ca (t1 - ca)).map (fun a => 1 - qRisk ci a)).prod := by
      refine List.prod_nonneg ?_
      intro x hx
      obtain ⟨a, _, rfl⟩ := List.mem_map.1 hx
      linarith [(hq a).2]
    have hR1 : ((List.range' (ca + (t1 - ca)) ((t2 - ca) - (t1 - ca))).map
        (fun a => 1 - qRisk ci a)).prod ≤ 1 := by
      refine list_prod_le_one ?_ ?_ <;> intro x hx <;>
        obtain ⟨a, _, rfl⟩ := List.mem_map.1 hx
      · linarith [(hq a).2]
      · linarith [(hq a).1]
    have := mul_le_of_le_one_right hP1 hR1
    linarith

/-- Witness for `C9_cumulative_risk`: the all-fallback table
(`qRisk = 0.05` at every age). -/
theorem C9_cumulative_risk_witness :
    (0 < calculate_cumulative_risk (some (fun _ => none)) 30 70 ∧
      calculate_cumulative_risk (some (fun _ => none)) 30 70 < 100) ∧
    calculate_cumulative_risk (some (fun _ => none)) 30 50 ≤
      calculate_cumulative_risk (some (fun _ => none)) 30 60 :=
  ⟨C9_cumulative_risk.1 (fun _ => none)
      (fun a _ _ => by constructor <;> norm_num [qRisk]),
    C9_cumulative_risk.2 (fun _ => none) 30 50 60
      (fun a => by constructor <;> norm_num [qRisk]) (by norm_num)⟩

/-! ## C8: table load failure yields the empty collection -/

/-- C8: when the actuarial tables cannot be loaded or parsed (the
`try/except` at lines 116-125, modelled by the `none` load outcome),
`run_stochastic_simulation` returns the empty result collection instead
of raising. -/
theorem C8_load_failure_empty (p : PolicyParams) (n : ℕ) (r rd : ℚ)
    (mp : Bool) (k : ℕ) (draws : ℕ → ℕ → ℚ) :
    run_stochastic_simulation p n none r rd mp k draws = [] := rfl

/-! ## C2, C5, C10: per-step lemmas for the stochastic loop -/

section StepLemmas

variable (p : PolicyParams) (mp : Bool) (k : ℕ) (r m w : ℚ) (s : LifeState)

theorem cashflowStep_log : (cashflowStep p r s).event_log = s.event_log := rfl

theorem cashflowStep_age : (cashflowStep p r s).age = s.age + 1 := rfl

theorem cashflowStep_wl_active : (cashflowStep p r s).wl_active = s.wl_active := rfl

theorem cashflowStep_term_active :
    (cashflowStep p r s).term_active = s.term_active := rfl

theorem cashflowStep_wl_claims :
    (cashflowStep p r s).wl_claims_count = s.wl_claims_count := rfl

theorem cashflowStep_term_claims :
    (cashflowStep p r s).term_claims_count = s.term_claims_count := rfl

theorem deathStep_age : (deathStep p k m w s).age = s.age := by
  obtain ⟨age, wlc, tcc, hc, bf, wcr, wa, ta, log⟩ := s
  cases wa <;> cases ta <;> by_cases h1 : wlc < k <;> by_cases h3 : tcc < 1 <;>
    by_cases h4 : age < p.term_expiry_age <;> simp [deathStep, h1, h3, h4]

theorem deathStep_counts :
    (deathStep p k m w s).wl_claims_count = s.wl_claims_count ∧
    (deathStep p k m w s).term_claims_count = s.term_claims_count := by
  obtain ⟨age, wlc, tcc, hc, bf, wcr, wa, ta, log⟩ := s
  cases wa <;> cases ta <;> by_cases h1 : wlc < k <;> by_cases h3 : tcc < 1 <;>
    by_cases h4 : age < p.term_expiry_age <;> simp [deathStep, h1, h3, h4]

theorem deathStep_log :
    (deathStep p k m w s).event_log = s.event_log ∨
    (deathStep p k m w s).event_log = s.event_log ++ ["Death"] := by
  obtain ⟨age, wlc, tcc, hc, bf, wcr, wa, ta, log⟩ := s
  cases wa <;> cases ta <;> by_cases h1 : wlc < k <;> by_cases h3 : tcc < 1 <;>
    by_cases h4 : age < p.term_expiry_age <;> simp [deathStep, h1, h3, h4]

theorem deathStep_log_of_eligible (h1 : s.wl_active = true)
    (h2 : s.wl_claims_count < k) :
    (deathStep p k m w s).event_log = s.event_log ++ ["Death"] := by
  obtain ⟨age, wlc, tcc, hc, bf, wcr, wa, ta, log⟩ := s
  subst h1
  cases ta <;> by_cases h3 : tcc < 1 <;>
    by_cases h4 : age < p.term_expiry_age <;> simp [deathStep, h2, h3, h4]

theorem ciStep_age : (ciStep p mp k m w s).age = s.age := by
  obtain ⟨age, wlc, tcc, hc, bf, wcr, wa, ta, log⟩ := s
  cases wa <;> cases ta <;> by_cases h1 : wlc < k <;> by_cases h3 : tcc < 1 <;>
    by_cases h4 : age < p.term_expiry_age <;> simp [ciStep, h1, h3, h4]

theorem ciStep_log :
    (ciStep p mp k m w s).event_log = s.event_log ∨
    (ciStep p mp k m w s).event_log = s.event_log ++ ["CI"] := by
  obtain ⟨age, wlc, tcc, hc, bf, wcr, wa, ta, log⟩ := s
  cases wa <;> cases ta <;> by_cases h1 : wlc < k <;> by_cases h3 : tcc < 1 <;>
    by_cases h4 : age < p.term_expiry_age <;> simp [ciStep, h1, h3, h4]

theorem ciStep_log_eq_imp :
    (ciStep p mp k m w s).event_log = s.event_log →
    (ciStep p mp k m w s).wl_active = s.wl_active ∧
    (ciStep p mp k m w s).wl_claims_count = s.wl_claims_count := by
  obtain ⟨age, wlc, tcc, hc, bf, wcr, wa, ta, log⟩ := s
  cases wa <;> cases ta <;> by_cases h1 : wlc < k <;> by_cases h3 : tcc < 1 <;>
    by_cases h4 : age < p.term_expiry_age <;> simp [ciStep, h1, h3, h4]

theorem ciStep_inv (hk : 1 ≤ k)
    (hcount : s.event_log.count "CI" = s.wl_claims_count)
    (hle : s.wl_claims_count ≤ k)
    (hact : s.wl_active = false → 1 ≤ s.wl_claims_count)
    (hterm : 1 ≤ s.wl_claims_count →
      ¬(s.term_active = true ∧ s.term_claims_count = 0 ∧
        s.age < p.term_expiry_age)) :
    (ciStep p mp k m w s).event_log.count "CI" =
      (ciStep p mp k m w s).wl_claims_count ∧
    (ciStep p mp k m w s).wl_claims_count ≤ k ∧
    ((ciStep p mp k m w s).wl_active = false →
      1 ≤ (ciStep p mp k m w s).wl_claims_count) ∧
    (1 ≤ (ciStep p mp k m w s).wl_claims_count →
      ¬((ciStep p mp k m w s).term_active = true ∧
        (ciStep p mp k m w s).term_claims_count = 0 ∧
        (ciStep p mp k m w s).age < p.term_expiry_age)) := by
  obtain ⟨age, wlc, tcc, hc, bf, wcr, wa, ta, log⟩ := s
  cases wa <;> cases ta <;> by_cases h1 : wlc < k <;>
    by_cases h3 : tcc < 1 <;> by_cases h4 : age < p.term_expiry_age
  all_goals simp [ciStep, h1, h3, h4, List.count_append]
  all_goals try simp at hcount
  all_goals try simp at hle
  all_goals try simp at hact
  all_goals try simp at hterm
  all_goals omega

end StepLemmas

theorem yearStep_not_dead (p : PolicyParams) (mp : Bool) (k : ℕ) (r : ℚ)
    (tb : ActuarialTables) (roll : ℚ) (s : LifeState) :
    (yearStep p mp k r tb roll s).2 = false → s.age ≠ 100 := by
  intro h h100
  simp [yearStep, h100] at h

/-- Every loop iteration is one of three shapes: a terminal death step,
a CI step followed by the cash flow, or the cash flow alone; the state
it acts on agrees with the input state except possibly the health
counter. -/
theorem yearStep_shape (p : PolicyParams) (mp : Bool) (k : ℕ) (r : ℚ)
    (tb : ActuarialTables) (roll : ℚ) (s : LifeState) :
    ∃ (m w : ℚ) (s0 : LifeState),
      s0.age = s.age ∧ s0.wl_claims_count = s.wl_claims_count ∧
      s0.term_claims_count = s.term_claims_count ∧
      s0.wl_active = s.wl_active ∧ s0.term_active = s.term_active ∧
      s0.event_log = s.event_log ∧
      (yearStep p mp k r tb roll s = (deathStep p k m w s0, true) ∨
       yearStep p mp k r tb roll s =
         (cashflowStep p r (ciStep p mp k m w s0), false) ∨
       yearStep p mp k r tb roll s = (cashflowStep p r s0, false)) := by
  refine ⟨if s.age < p.multiplier_age then p.multiplier_factor else 1,
    wl_sv_stoch p (s.age - p.current_age + 1), ?_⟩
  by_cases h100 : s.age = 100
  · exact ⟨s, rfl, rfl, rfl, rfl, rfl, rfl, Or.inl (by simp [yearStep, h100])⟩
  · by_cases hD : roll < loaded_q_d tb s.health_ci_count s.age
    · exact ⟨s, rfl, rfl, rfl, rfl, rfl, rfl, Or.inl (by simp [yearStep, h100, hD])⟩
    · by_cases hCI : roll < loaded_q_d tb s.health_ci_count s.age +
        (tb.ci s.age).getD 0.05
      · exact ⟨{ s with health_ci_count := s.health_ci_count + 1 },
          rfl, rfl, rfl, rfl, rfl, rfl,
          Or.inr (Or.inl (by simp [yearStep, h100, hD, hCI]))⟩
      · exact ⟨s, rfl, rfl, rfl, rfl, rfl, rfl,
          Or.inr (Or.inr (by simp [yearStep, h100, hD, hCI]))⟩

theorem runLife_age_bounds (p : PolicyParams) (mp : Bool) (k : ℕ) (r : ℚ)
    (tb : ActuarialTables) (draws : ℕ → ℚ) :
    ∀ (fuel : ℕ) (s : LifeState), s.age ≤ 100 →
      s.age ≤ (runLife p mp k r tb draws fuel s).age ∧
      (runLife p mp k r tb draws fuel s).age ≤ 100 := by
  intro fuel
  induction fuel with
  | zero => exact fun s h => ⟨le_refl _, h⟩
  | succ n ih =>
    intro s hs
    rw [runLife]
    rw [if_neg (by omega : ¬(100 < s.age))]
    obtain ⟨m, w, s0, e1, e2, e3, e4, e5, e6, hcase⟩ :=
      yearStep_shape p mp k r tb (draws (s.age - p.current_age)) s
    rcases hcase with heq | heq | heq <;>
      simp only [heq, if_true, Bool.false_eq_true, if_false]
    · rw [deathStep_age, e1]
      exact ⟨le_refl _, hs⟩
    · have hne : s.age ≠ 100 :=
        yearStep_not_dead p mp k r tb _ s (by rw [heq])
      have hage' : (cashflowStep p r (ciStep p mp k m w s0)).age = s.age + 1 := by
        rw [cashflowStep_age, ciStep_age, e1]
      obtain ⟨ih1, ih2⟩ := ih (cashflowStep p r (ciStep p mp k m w s0))
        (by rw [hage']; omega)
      rw [hage'] at ih1
      exact ⟨by omega, ih2⟩
    · have hne : s.age ≠ 100 :=
        yearStep_not_dead p mp k r tb _ s (by rw [heq])
      have hage' : (cashflowStep p r s0).age = s.age + 1 := by
        rw [cashflowStep_age, e1]
      obtain ⟨ih1, ih2⟩ := ih (cashflowStep p r s0) (by rw [hage']; omega)
      rw [hage'] at ih1
      exact ⟨by omega, ih2⟩

theorem runLife_log_elems (p : PolicyParams) (mp : Bool) (k : ℕ) (r : ℚ)
    (tb : ActuarialTables) (draws : ℕ → ℚ) :
    ∀ (fuel : ℕ) (s : LifeState),
      (∀ x ∈ s.event_log, x = "CI" ∨ x = "Death") →
      ∀ x ∈ (runLife p mp k r tb draws fuel s).event_log,
        x = "CI" ∨ x = "Death" := by
  intro fuel
  induction fuel with
  | zero => exact fun s h => h
  | succ n ih =>
    intro s hs
    rw [runLife]
    by_cases hage : 100 < s.age
    · rw [if_pos hage]; exact hs
    · rw [if_neg hage]
      obtain ⟨m, w, s0, e1, e2, e3, e4, e5, e6, hcase⟩ :=
        yearStep_shape p mp k r tb (draws (s.age - p.current_age)) s
      have hs0 : ∀ x ∈ s0.event_log, x = "CI" ∨ x = "Death" := by
        rw [e6]; exact hs
      rcases hcase with heq | heq | heq <;>
        simp only [heq, if_true, Bool.false_eq_true, if_false]
      · rcases deathStep_log p k m w s0 with hl | hl <;> rw [hl]
        · exact hs0
        · intro x hx
          rcases List.mem_append.1 hx with hx' | hx'
          · exact hs0 x hx'
          · right; simpa using hx'
      · refine ih _ ?_
        rw [cashflowStep_log]
        rcases ciStep_log p mp k m w s0 with hl | hl <;> rw [hl]
        · exact hs0
        · intro x hx
          rcases List.mem_append.1 hx with hx' | hx'
          · exact hs0 x hx'
          · left; simpa using hx'
      · refine ih _ ?_
        rw [cashflowStep_log]
        exact hs0

theorem runLife_death_once (p : PolicyParams) (mp : Bool) (k : ℕ) (r : ℚ)
    (tb : ActuarialTables) (draws : ℕ → ℚ) :
    ∀ (fuel : ℕ) (s : LifeState), "Death" ∉ s.event_log →
      (runLife p mp k r tb draws fuel s).event_log.count "Death" ≤ 1 ∧
      ("Death" ∈ (runLife p mp k r tb draws fuel s).event_log →
        (runLife p mp k r tb draws fuel s).event_log.getLast? = some "Death") := by
  intro fuel
  induction fuel with
  | zero =>
    intro s h
    rw [runLife]
    constructor
    · rw [List.count_eq_zero.2 h]
      omega
    · exact fun hm => absurd hm h
  | succ n ih =>
    intro s hs
    rw [runLife]
    by_cases hage : 100 < s.age
    · rw [if_pos hage]
      constructor
      · rw [List.count_eq_zero.2 hs]
        omega
      · exact fun hm => absurd hm hs
    · rw [if_neg hage]
      obtain ⟨m, w, s0, e1, e2, e3, e4, e5, e6, hcase⟩ :=
        yearStep_shape p mp k r tb (draws (s.age - p.current_age)) s
      have hs0 : "Death" ∉ s0.event_log := by rw [e6]; exact hs
      rcases hcase with heq | heq | heq <;>
        simp only [heq, if_true, Bool.false_eq_true, if_false]
      · rcases deathStep_log p k m w s0 with hl | hl <;> rw [hl]
        · constructor
          · rw [List.count_eq_zero.2 hs0]
            omega
          · exact fun hm => absurd hm hs0
        · constructor
          · rw [List.count_append, List.count_eq_zero.2 hs0]
            simp
          · intro _
            exact List.getLast?_concat _
      · refine ih _ ?_
        rw [cashflowStep_log]
        rcases ciStep_log p mp k m w s0 with hl | hl <;> rw [hl]
        · exact hs0
        · intro hx
          rcases List.mem_append.1 hx with hx' | hx'
          · exact hs0 hx'
          · simp at hx'
      · refine ih _ ?_
        rw [cashflowStep_log]
        exact hs0

theorem runLife_ci_le (p : PolicyParams) (mp : Bool) (k : ℕ) (r : ℚ)
    (tb : ActuarialTables) (draws : ℕ → ℚ) (hk : 1 ≤ k) :
    ∀ (fuel : ℕ) (s : LifeState),
      s.event_log.count "CI" = s.wl_claims_count →
      s.wl_claims_count ≤ k →
      (s.wl_active = false → 1 ≤ s.wl_claims_count) →
      (1 ≤ s.wl_claims_count →
        ¬(s.term_active = true ∧ s.term_claims_count = 0 ∧
          s.age < p.term_expiry_age)) →
      (runLife p mp k r tb draws fuel s).event_log.count "CI" ≤ k := by
  intro fuel
  induction fuel with
  | zero =>
    intro s hcount hle _ _
    rw [runLife, hcount]
    exact hle
  | succ n ih =>
    intro s hcount hle hact hterm
    rw [runLife]
    by_cases hage : 100 < s.age
    · rw [if_pos hage, hcount]
      exact hle
    · rw [if_neg hage]
      obtain ⟨m, w, s0, e1, e2, e3, e4, e5, e6, hcase⟩ :=
        yearStep_shape p mp k r tb (draws (s.age - p.current_age)) s
      have hc0 : s0.event_log.count "CI" = s0.wl_claims_count := by
        rw [e6, e2]; exact hcount
      have hle0 : s0.wl_claims_count ≤ k := by rw [e2]; exact hle
      have hact0 : s0.wl_active = false → 1 ≤ s0.wl_claims_count := by
        rw [e4, e2]; exact hact
      have hterm0 : 1 ≤ s0.wl_claims_count →
          ¬(s0.term_active = true ∧ s0.term_claims_count = 0 ∧
            s0.age < p.term_expiry_age) := by
        rw [e2, e5, e3, e1]; exact hterm
      rcases hcase with heq | heq | heq <;>
        simp only [heq, if_true, Bool.false_eq_true, if_false]
      · rcases deathStep_log p k m w s0 with hl | hl <;> rw [hl]
        · rw [hc0]; exact hle0
        · rw [List.count_append, hc0]
          simpa using hle0
      · obtain ⟨i1, i2, i3, i4⟩ := ciStep_inv p mp k m w s0 hk hc0 hle0 hact0 hterm0
        refine ih _ ?_ ?_ ?_ ?_
        · rw [cashflowStep_log, cashflowStep_wl_claims]
          exact i1
        · rw [cashflowStep_wl_claims]
          exact i2
        · rw [cashflowStep_wl_active, cashflowStep_wl_claims]
          exact i3
        · rw [cashflowStep_wl_claims, cashflowStep_term_active,
            cashflowStep_term_claims, cashflowStep_age]
          intro h1c
          rintro ⟨hta, htc, hlt⟩
          exact i4 h1c ⟨hta, htc, by omega⟩
      · refine ih _ ?_ ?_ ?_ ?_
        · rw [cashflowStep_log, cashflowStep_wl_claims]
          exact hc0
        · rw [cashflowStep_wl_claims]
          exact hle0
        · rw [cashflowStep_wl_active, cashflowStep_wl_claims]
          exact hact0
        · rw [cashflowStep_wl_claims, cashflowStep_term_active,
            cashflowStep_term_claims, cashflowStep_age]
          intro h1c
          rintro ⟨hta, htc, hlt⟩
          exact hterm0 h1c ⟨hta, htc, by omega⟩

theorem runLife_log_ne_nil (p : PolicyParams) (mp : Bool) (k : ℕ) (r : ℚ)
    (tb : ActuarialTables) (draws : ℕ → ℚ) (hk : 1 ≤ k) :
    ∀ (fuel : ℕ) (s : LifeState), s.age ≤ 100 → 101 ≤ s.age + fuel →
      (s.event_log = [] → s.wl_active = true ∧ s.wl_claims_count = 0) →
      (runLife p mp k r tb draws fuel s).event_log ≠ [] := by
  intro fuel
  induction fuel with
  | zero =>
    intro s h1 h2 _
    omega
  | succ n ih =>
    intro s h1 h2 hinv
    rw [runLife]
    rw [if_neg (by omega : ¬(100 < s.age))]
    obtain ⟨m, w, s0, e1, e2, e3, e4, e5, e6, hcase⟩ :=
      yearStep_shape p mp k r tb (draws (s.age - p.current_age)) s
    rcases hcase with heq | heq | heq <;>
      simp only [heq, if_true, Bool.false_eq_true, if_false]
    · by_cases hnil : s.event_log = []
      · obtain ⟨ha, hc⟩ := hinv hnil
        rw [deathStep_log_of_eligible p k m w s0 (by rw [e4]; exact ha)
          (by rw [e2, hc]; omega)]
        simp
      · rcases deathStep_log p k m w s0 with hl | hl <;> rw [hl, e6]
        · exact hnil
        · simp
    · have hne : s.age ≠ 100 :=
        yearStep_not_dead p mp k r tb _ s (by rw [heq])
      refine ih _ ?_ ?_ ?_
      · rw [cashflowStep_age, ciStep_age, e1]; omega
      · rw [cashflowStep_age, ciStep_age, e1]; omega
      · intro hnil
        rw [cashflowStep_log] at hnil
        rcases ciStep_log p mp k m w s0 with hl | hl
        · rw [hl, e6] at hnil
          obtain ⟨ha, hc⟩ := hinv hnil
          obtain ⟨f1, f2⟩ := ciStep_log_eq_imp p mp k m w s0 (by rw [hl, e6, hnil])
          constructor
          · rw [cashflowStep_wl_active, f1, e4]; exact ha
          · rw [cashflowStep_wl_claims, f2, e2]; exact hc
        · rw [hl] at hnil
          simp at hnil
    · have hne : s.age ≠ 100 :=
        yearStep_not_dead p mp k r tb _ s (by rw [heq])
      refine ih _ ?_ ?_ ?_
      · rw [cashflowStep_age, e1]; omega
      · rw [cashflowStep_age, e1]; omega
      · intro hnil
        rw [cashflowStep_log, e6] at hnil
        obtain ⟨ha, hc⟩ := hinv hnil
        constructor
        · rw [cashflowStep_wl_active, e4]; exact ha
        · rw [cashflowStep_wl_claims, e2]; exact hc

theorem joinChain_length_ge (l : List String) :
    l ≠ [] → (∀ x ∈ l, x = "CI" ∨ x = "Death") →
    2 ≤ (joinChain l).length := by
  induction l with
  | nil => intro h; exact absurd rfl h
  | cons a t ih =>
    intro _ helem
    cases t with
    | nil =>
      rcases helem a (by simp) with rfl | rfl <;> decide
    | cons b t2 =>
      have h2 : 2 ≤ (joinChain (b :: t2)).length :=
        ih (by simp) (fun x hx => helem x (by simp [hx]))
      have ha : 2 ≤ a.length := by
        rcases helem a (by simp) with rfl | rfl <;> decide
      rw [joinChain]
      rw [String.length_append, String.length_append]
      omega

theorem joinChain_ne_survive (l : List String) (hne : l ≠ [])
    (helem : ∀ x ∈ l, x = "CI" ∨ x = "Death") :
    joinChain l ≠ "Survive" := by
  cases l with
  | nil => exact absurd rfl hne
  | cons a t =>
    cases t with
    | nil =>
      rcases helem a (by simp) with rfl | rfl <;> decide
    | cons b t2 =>
      intro h
      have hlen := congrArg String.length h
      rw [joinChain, String.length_append, String.length_append] at hlen
      have h2 : 2 ≤ (joinChain (b :: t2)).length :=
        joinChain_length_ge _ (by simp) (fun x hx => helem x (by simp [hx]))
      have ha : 2 ≤ a.length := by
        rcases helem a (by simp) with rfl | rfl <;> decide
      have hsep : (" -> ").length = 4 := rfl
      have hsv : ("Survive").length = 7 := rfl
      omega

theorem simLife_fields (p : PolicyParams) (tb : ActuarialTables) (r rd : ℚ)
    (mp : Bool) (k : ℕ) (d : ℕ → ℚ) :
    (simLife p tb r rd mp k d).finalAge =
      (runLife p mp (if mp then k else 1) r tb d 102 (initState p)).age ∧
    (simLife p tb r rd mp k d).events =
      (runLife p mp (if mp then k else 1) r tb d 102 (initState p)).event_log ∧
    (simLife p tb r rd mp k d).eventChain =
      (if ((runLife p mp (if mp then k else 1) r tb d 102
          (initState p)).event_log).isEmpty then "Survive"
       else joinChain ((runLife p mp (if mp then k else 1) r tb d 102
          (initState p)).event_log)) :=
  ⟨rfl, rfl, rfl⟩

unseal Rat.add Rat.mul Rat.sub Rat.inv Rat.ofScientific in
/-- C2 (counterexample): started at `current_age = 101` (the spec's
parameter invariants only require `current_age < death_age`), the loop
body never runs: the single life ends at age 101 with chain
`"Survive"` — outside `[current_age, 100]` and not at age 100. -/
theorem C2_counterexample :
    run_stochastic_simulation centenarianParams 1 (some tbEmpty) 0 0 false 2
        (fun _ _ => 1/2) =
      [{ events := [], eventChain := "Survive", finalAge := 101, diff := 0 }] ∧
    ¬((101:ℕ) ≤ 100) := by
  constructor
  · decide
  · decide

/-- C2 (amended): provided `current_age ≤ 100`, every LifeOutcome's
final age lies in `[current_age, 100]`; and provided additionally the
WL claim limit (`maxClaims` if multi-pay, else 1) is at least 1, every
LifeOutcome whose event chain is `"Survive"` has final age exactly 100
(with such a limit a death payout is always logged, so `"Survive"` in
fact never occurs). -/
theorem C2_final_age (p : PolicyParams) (n : ℕ)
    (tbLoad : Option ActuarialTables) (r rd : ℚ) (mp : Bool) (k : ℕ)
    (draws : ℕ → ℕ → ℚ) (hca : p.current_age ≤ 100) :
    ∀ o ∈ run_stochastic_simulation p n tbLoad r rd mp k draws,
      (p.current_age ≤ o.finalAge ∧ o.finalAge ≤ 100) ∧
      (1 ≤ (if mp then k else 1) → o.eventChain = "Survive" →
        o.finalAge = 100) := by
  intro o ho
  cases tbLoad with
  | none => simp [run_stochastic_simulation] at ho
  | some tb =>
    simp only [run_stochastic_simulation] at ho
    obtain ⟨i, -, rfl⟩ := List.mem_map.1 ho
    obtain ⟨f1, f2, f3⟩ := simLife_fields p tb r rd mp k (draws i)
    constructor
    · rw [f1]
      exact runLife_age_bounds p mp (if mp then k else 1) r tb (draws i) 102
        (initState p) hca
    · intro hk hsurv
      exfalso
      have hne : (runLife p mp (if mp then k else 1) r tb (draws i) 102
          (initState p)).event_log ≠ [] :=
        runLife_log_ne_nil p mp (if mp then k else 1) r tb (draws i) hk 102
          (initState p) hca (by show 101 ≤ p.current_age + 102; omega)
          (fun _ => ⟨rfl, rfl⟩)
      have helems := runLife_log_elems p mp (if mp then k else 1) r tb
        (draws i) 102 (initState p)
        (fun x hx => absurd hx (List.not_mem_nil x))
      rw [f3] at hsurv
      rw [if_neg (by simpa using hne)] at hsurv
      exact joinChain_ne_survive _ hne helems hsurv

unseal Rat.add Rat.mul Rat.sub Rat.inv Rat.ofScientific in
/-- Witness for `C2_final_age`: one life from age 99, forced death at
100 with a logged WL payout. -/
theorem C2_final_age_witness :
    lateParams70.current_age ≤ 100 ∧
    ((run_stochastic_simulation lateParams70 1 (some tbEmpty) 0 0 true 2
        (fun _ _ => 1/2)).headD dummyOutcome ∈
      run_stochastic_simulation lateParams70 1 (some tbEmpty) 0 0 true 2
        (fun _ _ => 1/2)) ∧
    ((lateParams70.current_age ≤
        ((run_stochastic_simulation lateParams70 1 (some tbEmpty) 0 0 true 2
          (fun _ _ => 1/2)).headD dummyOutcome).finalAge ∧
      ((run_stochastic_simulation lateParams70 1 (some tbEmpty) 0 0 true 2
          (fun _ _ => 1/2)).headD dummyOutcome).finalAge ≤ 100) ∧
     (1 ≤ (if true then 2 else 1) →
      ((run_stochastic_simulation lateParams70 1 (some tbEmpty) 0 0 true 2
          (fun _ _ => 1/2)).headD dummyOutcome).eventChain = "Survive" →
      ((run_stochastic_simulation lateParams70 1 (some tbEmpty) 0 0 true 2
          (fun _ _ => 1/2)).headD dummyOutcome).finalAge = 100)) :=
  ⟨by decide, by decide,
    C2_final_age lateParams70 1 (some tbEmpty) 0 0 true 2 (fun _ _ => 1/2)
      (by decide) _ (by decide)⟩

unseal Rat.add Rat.mul Rat.sub Rat.inv Rat.ofScientific in
/-- C5 (counterexample): with multi-pay enabled and `maxClaims = 0`,
the WL claim limit is 0 but the TERM rider still pays one CI claim, so
a chain with one `"CI"` tag (more than `k = 0`) is produced: a CI event
at age 99 (roll 0.07 between `q_d = 0.05` and `q_d + q_ci = 0.10`) pays
the term benefit; the forced death at 100 then finds no payer and logs
nothing. -/
theorem C5_counterexample :
    run_stochastic_simulation lateParams 1 (some tbEmpty) 0 0 true 0
        (fun _ _ => 7/100) =
      [{ events := ["CI"], eventChain := "CI", finalAge := 100, diff := 0 }] ∧
    ¬((["CI"] : List String).count "CI" ≤ 0) := by
  constructor
  · decide
  · decide

/-- C5 (amended): with multi-pay disabled every event chain has at most
one `"CI"` tag; with multi-pay enabled and `maxClaims = k ≥ 1`, every
event chain has at most `k` `"CI"` tags (for `k = 0` the term rider can
still produce one `"CI"` payout). -/
theorem C5_ci_claim_limit (p : PolicyParams) (n : ℕ)
    (tbLoad : Option ActuarialTables) (r rd : ℚ) (mp : Bool) (k : ℕ)
    (draws : ℕ → ℕ → ℚ) :
    ∀ o ∈ run_stochastic_simulation p n tbLoad r rd mp k draws,
      (mp = false → o.events.count "CI" ≤ 1) ∧
      (mp = true → 1 ≤ k → o.events.count "CI" ≤ k) := by
  intro o ho
  cases tbLoad with
  | none => simp [run_stochastic_simulation] at ho
  | some tb =>
    simp only [run_stochastic_simulation] at ho
    obtain ⟨i, -, rfl⟩ := List.mem_map.1 ho
    obtain ⟨-, f2, -⟩ := simLife_fields p tb r rd mp k (draws i)
    constructor
    · intro hmp
      subst hmp
      rw [f2]
      exact runLife_ci_le p false 1 r tb (draws i) (le_refl 1) 102
        (initState p) rfl (Nat.zero_le 1)
        (fun h => by simp [initState] at h)
        (fun h => absurd h (by simp [initState]))
    · intro hmp hk
      subst hmp
      rw [f2]
      have hlim : (if true then k else 1) = k := rfl
      rw [hlim]
      exact runLife_ci_le p true k r tb (draws i) hk 102
        (initState p) rfl (Nat.zero_le k)
        (fun h => by simp [initState] at h)
        (fun h => absurd h (by simp [initState]))

unseal Rat.add Rat.mul Rat.sub Rat.inv Rat.ofScientific in
/-- Witness for `C5_ci_claim_limit` on a concrete single-life run with
multi-pay enabled and `maxClaims = 2`. -/
theorem C5_ci_claim_limit_witness :
    ((run_stochastic_simulation lateParams70 1 (some tbEmpty) 0 0 true 2
        (fun _ _ => 1/2)).headD dummyOutcome ∈
      run_stochastic_simulation lateParams70 1 (some tbEmpty) 0 0 true 2
        (fun _ _ => 1/2)) ∧
    ((true = false →
      ((run_stochastic_simulation lateParams70 1 (some tbEmpty) 0 0 true 2
          (fun _ _ => 1/2)).headD dummyOutcome).events.count "CI" ≤ 1) ∧
     (true = true → 1 ≤ 2 →
      ((run_stochastic_simulation lateParams70 1 (some tbEmpty) 0 0 true 2
          (fun _ _ => 1/2)).headD dummyOutcome).events.count "CI" ≤ 2)) :=
  ⟨by decide,
    C5_ci_claim_limit lateParams70 1 (some tbEmpty) 0 0 true 2
      (fun _ _ => 1/2) _ (by decide)⟩

/-- C10: every ordered event history holds at most one `"Death"` tag,
and when one is present it is the last tag: `"Death"` is only appended
in the branch that also terminates the life (`break`), while `"CI"`
tags are appended strictly before. -/
theorem C10_death_last (p : PolicyParams) (n : ℕ)
    (tbLoad : Option ActuarialTables) (r rd : ℚ) (mp : Bool) (k : ℕ)
    (draws : ℕ → ℕ → ℚ) :
    ∀ o ∈ run_stochastic_simulation p n tbLoad r rd mp k draws,
      o.events.count "Death" ≤ 1 ∧
      ("Death" ∈ o.events → o.events.getLast? = some "Death") := by
  intro o ho
  cases tbLoad with
  | none => simp [run_stochastic_simulation] at ho
  | some tb =>
    simp only [run_stochastic_simulation] at ho
    obtain ⟨i, -, rfl⟩ := List.mem_map.1 ho
    obtain ⟨-, f2, -⟩ := simLife_fields p tb r rd mp k (draws i)
    rw [f2]
    exact runLife_death_once p mp (if mp then k else 1) r tb (draws i) 102
      (initState p) (List.not_mem_nil _)

unseal Rat.add Rat.mul Rat.sub Rat.inv Rat.ofScientific in
/-- Witness for `C10_death_last` on a concrete single-life run whose
history is `["Death"]`. -/
theorem C10_death_last_witness :
    ((run_stochastic_simulation lateParams70 1 (some tbEmpty) 0 0 false 2
        (fun _ _ => 1/2)).headD dummyOutcome ∈
      run_stochastic_simulation lateParams70 1 (some tbEmpty) 0 0 false 2
        (fun _ _ => 1/2)) ∧
    (((run_stochastic_simulation lateParams70 1 (some tbEmpty) 0 0 false 2
        (fun _ _ => 1/2)).headD dummyOutcome).events.count "Death" ≤ 1 ∧
     ("Death" ∈ ((run_stochastic_simulation lateParams70 1 (some tbEmpty) 0 0
          false 2 (fun _ _ => 1/2)).headD dummyOutcome).events →
      ((run_stochastic_simulation lateParams70 1 (some tbEmpty) 0 0 false 2
          (fun _ _ => 1/2)).headD dummyOutcome).events.getLast? =
        some "Death")) :=
  ⟨by decide,
    C10_death_last lateParams70 1 (some tbEmpty) 0 0 false 2
      (fun _ _ => 1/2) _ (by decide)⟩
